import Mathlib

set_option maxHeartbeats 1000000

namespace InfraAgent

/-!
Shallow embedding of the orchestration/approval core of the aws-infra-agent-bot
repository: the intent policy (src/core/intent_policy.py), the maker-checker
gate, store and state machine, the credential/profile context and the audit
reconstruction (src/bin/agui_server.py), and the Terraform apply dispatch
(src/mcp_servers/aws_terraform/terraform.py).
-/

/-! ## Intent policy — src/core/intent_policy.py -/

/-- `READONLY_KEYWORDS` tuple from src/core/intent_policy.py. -/
def READONLY_KEYWORDS : List String :=
  ["list", "listing", "summarize", "summary", "show", "inventory", "describe",
   "what resources", "cost", "billing", "spend"]

/-- `MUTATING_KEYWORDS` tuple from src/core/intent_policy.py. -/
def MUTATING_KEYWORDS : List String :=
  ["create", "provision", "deploy", "build", "launch", "spin up", "apply",
   "destroy", "delete", "remove", "terminate"]

/-- `MUTATING_TOOLS` set from src/core/intent_policy.py. -/
def MUTATING_TOOLS : List String :=
  ["terraform_plan", "terraform_apply", "terraform_destroy"]

/-- Character-wise lowercasing, modelling Python `str.lower()` (ASCII letters;
the repository's keyword lists are all ASCII). -/
def lowerStr (s : String) : String := String.mk (s.data.map Char.toLower)

/-- Character-list test that the first list begins the second
(executable model of one position of Python substring search). -/
def charsStart : List Char → List Char → Bool
  | [], _ => true
  | _ :: _, [] => false
  | a :: as, b :: bs => a == b && charsStart as bs

/-- Character-list substring test, scanning every position
(executable model of the Python `needle in hay` test). -/
def charsSub : List Char → List Char → Bool
  | n, [] => n.isEmpty
  | n, b :: bs => charsStart n (b :: bs) || charsSub n bs

/-- Python `needle in hay` on strings. -/
def strContains (hay needle : String) : Bool :=
  charsSub needle.toList hay.toList

/-- `any(k in lower_msg for k in keywords)`. -/
def anyKeyword (lower_msg : String) (keywords : List String) : Bool :=
  keywords.any (fun k => strContains lower_msg k)

/-- `detect_read_only_intent` from src/core/intent_policy.py with the default
keyword lists: lower-cases the message, then requires at least one read-only
keyword and no mutating keyword. -/
def detect_read_only_intent (message : String) : Bool :=
  let lower_msg := lowerStr message
  let has_readonly := anyKeyword lower_msg READONLY_KEYWORDS
  let has_mutating := anyKeyword lower_msg MUTATING_KEYWORDS
  has_readonly && !has_mutating

/-- Python `s.startswith(pre)` (char-list implementation, kernel-reducible). -/
def strStarts (s pre : String) : Bool :=
  charsStart pre.toList s.toList

/-- Python `str.strip()`: drop whitespace from both ends
(char-list implementation, kernel-reducible). -/
def trimStr (s : String) : String :=
  String.mk ((((s.data.dropWhile Char.isWhitespace).reverse).dropWhile
    Char.isWhitespace).reverse)

/-- `is_mutating_tool` from src/core/intent_policy.py. -/
def is_mutating_tool (tool_name : String) : Bool :=
  strStarts tool_name ("create_") || MUTATING_TOOLS.contains tool_name

theorem charsStart_iff (n h : List Char) : charsStart n h = true ↔ n <+: h := by
  induction n generalizing h with
  | nil => simp [charsStart]
  | cons a as ih =>
    cases h with
    | nil => simp [charsStart]
    | cons b bs =>
      simp [charsStart, List.cons_prefix_cons, ih, Bool.and_eq_true, beq_iff_eq]

theorem charsSub_iff (n h : List Char) : charsSub n h = true ↔ n <:+: h := by
  induction h with
  | nil => simp [charsSub, List.isEmpty_iff]
  | cons b bs ih =>
    simp [charsSub, Bool.or_eq_true, charsStart_iff, ih, List.infix_cons_iff]

theorem strContains_iff (hay needle : String) :
    strContains hay needle = true ↔ needle.toList <:+: hay.toList := by
  simp [strContains, charsSub_iff]

theorem anyKeyword_iff (lower_msg : String) (keywords : List String) :
    anyKeyword lower_msg keywords = true ↔
      ∃ k ∈ keywords, k.toList <:+: lower_msg.toList := by
  simp [anyKeyword, List.any_eq_true, strContains_iff]

/-- C5: for every message whose lower-cased form contains both a read-only
keyword and a mutating keyword (default lists), `detect_read_only_intent`
returns `false`; and it returns `true` iff the lower-cased message contains at
least one read-only keyword and none of the mutating keywords. -/
theorem detect_read_only_intent_spec (m : String) :
    ((∃ k ∈ READONLY_KEYWORDS, k.toList <:+: (lowerStr m).toList) →
     (∃ k ∈ MUTATING_KEYWORDS, k.toList <:+: (lowerStr m).toList) →
      detect_read_only_intent m = false) ∧
    (detect_read_only_intent m = true ↔
      (∃ k ∈ READONLY_KEYWORDS, k.toList <:+: (lowerStr m).toList) ∧
      ∀ k ∈ MUTATING_KEYWORDS, ¬ k.toList <:+: (lowerStr m).toList) := by
  have hr := anyKeyword_iff (lowerStr m) READONLY_KEYWORDS
  have hm := anyKeyword_iff (lowerStr m) MUTATING_KEYWORDS
  constructor
  · intro h1 h2
    have hmt : anyKeyword (lowerStr m) MUTATING_KEYWORDS = true := hm.mpr h2
    simp [detect_read_only_intent, hmt]
  · constructor
    · intro h
      simp only [detect_read_only_intent, Bool.and_eq_true, Bool.not_eq_true'] at h
      refine ⟨hr.mp h.1, ?_⟩
      intro k hk hinf
      have : anyKeyword (lowerStr m) MUTATING_KEYWORDS = true := hm.mpr ⟨k, hk, hinf⟩
      rw [h.2] at this
      exact Bool.false_ne_true this
    · rintro ⟨h1, h2⟩
      have hrt : anyKeyword (lowerStr m) READONLY_KEYWORDS = true := hr.mpr h1
      have hmf : anyKeyword (lowerStr m) MUTATING_KEYWORDS = false := by
        cases hcase : anyKeyword (lowerStr m) MUTATING_KEYWORDS with
        | false => rfl
        | true =>
          obtain ⟨k, hk, hinf⟩ := hm.mp hcase
          exact absurd hinf (h2 k hk)
      simp [detect_read_only_intent, hrt, hmf]

/-- Witness for C5 at concrete messages. -/
theorem detect_read_only_intent_spec_witness :
    detect_read_only_intent ("list my buckets and delete the old ones") = false :=
  (detect_read_only_intent_spec ("list my buckets and delete the old ones")).1
    (by decide) (by decide)

/-! ## Role configuration and maker-checker gate — src/bin/agui_server.py -/

/-- Association-list lookup (Python `dict.get`). -/
def lookupA {α β : Type} [DecidableEq α] : List (α × β) → α → Option β
  | [], _ => none
  | (k, v) :: rest, key => if k = key then some v else lookupA rest key

/-- Association-list insert-or-overwrite (Python `dict[key] = value`,
keeping insertion order as CPython dicts do). -/
def putA {α β : Type} [DecidableEq α] : List (α × β) → α → β → List (α × β)
  | [], key, v => [(key, v)]
  | (k, w) :: rest, key, v =>
    if k = key then (key, v) :: rest else (k, w) :: putA rest key v

/-- Python `s.split(",")` on char lists. -/
def splitCommaChars : List Char → List (List Char)
  | [] => [[]]
  | c :: rest =>
    match splitCommaChars rest with
    | [] => [[]]
    | h :: t => if c = ',' then [] :: h :: t else (c :: h) :: t

/-- Python `s.split(",")`. -/
def splitComma (s : String) : List String :=
  (splitCommaChars s.data).map String.mk

/-- The environment-derived inputs read by the checker-profile helpers:
the in-memory `maker_checker_roles` checker list and the process
environment variables they fall back to. -/
structure RolesEnv where
  config_checker_profiles : List String
  env_checkers_many : Option String
  env_checkers_one : Option String
  aws_profile : Option String
deriving DecidableEq

/-- `_parse_profile_list`: split a comma-separated value, strip entries,
drop empties; `None`/empty input gives `[]`. -/
def parse_profile_list (raw : Option String) : List String :=
  match raw with
  | none => []
  | some r =>
    if r = "" then []
    else ((splitComma r).map trimStr).filter (fun v => v ≠ "")

/-- `_normalize_profiles`: strip entries, drop empties and duplicates,
keeping first-occurrence order (the Python version keeps a `seen` set whose
membership always equals membership in the accumulated list). -/
def normalize_profiles (values : List String) : List String :=
  values.foldl
    (fun acc item =>
      let v := trimStr item
      if v = "" ∨ acc.contains v then acc else acc ++ [v]) []

/-- `_default_checker_profiles`: the env-configured checker profiles, else a
singleton of `AWS_PROFILE` (default `"default"`). -/
def default_checker_profiles (env : RolesEnv) : List String :=
  let combined := normalize_profiles
    (parse_profile_list env.env_checkers_many ++ parse_profile_list env.env_checkers_one)
  if combined = [] then [env.aws_profile.getD ("default")] else combined

/-- `_checker_profiles`: normalized in-memory config, else the default
fallback. -/
def checker_profiles (env : RolesEnv) : List String :=
  let values := normalize_profiles env.config_checker_profiles
  if values = [] then default_checker_profiles env else values

/-- `_primary_checker_profile`. -/
def primary_checker_profile (env : RolesEnv) : String :=
  match checker_profiles env with
  | [] => ""
  | c :: _ => c

/-- `_is_checker_profile`. -/
def is_checker_profile (env : RolesEnv) (profile : String) : Bool :=
  (checker_profiles env).contains (trimStr profile)

/-- `_maker_checker_should_gate` from src/bin/agui_server.py. `current` is the
value `_current_profile()` would return, used when `active_profile` is absent
or empty (Python falsy). -/
def maker_checker_should_gate (env : RolesEnv) (tool_name : String)
    (mcp_server : Option String) (active_profile : Option String)
    (current : String) : Bool :=
  if mcp_server ≠ some ("aws_terraform") then false
  else if !is_mutating_tool tool_name then false
  else
    let effective_profile := match active_profile with
      | some p => if p = "" then current else p
      | none => current
    if checker_profiles env = [] then false
    else !is_checker_profile env effective_profile

theorem gate_iff_aux (env : RolesEnv) (tool_name b p current : String)
    (hp : p ≠ "") :
    maker_checker_should_gate env tool_name (some b) (some p) current = true ↔
      b = "aws_terraform" ∧ is_mutating_tool tool_name = true ∧
      checker_profiles env ≠ [] ∧ is_checker_profile env p = false := by
  unfold maker_checker_should_gate
  by_cases hb : b = "aws_terraform"
  · subst hb
    simp only [ne_eq, not_true_eq_false, if_false, true_and, hp]
    cases hmut : is_mutating_tool tool_name
    · simp
    · simp only [Bool.not_true, Bool.false_eq_true, if_false, true_and]
      by_cases hne : checker_profiles env = []
      · simp [hne]
      · simp [hne, Bool.not_eq_true']
  · have hob : (some b : Option String) ≠ some ("aws_terraform") := by
      simpa using hb
    simp [hob, hb]

/-- C3: the gate fires iff the backend is `aws_terraform`, the tool is
classified mutating, at least one checker profile is configured, and the
(non-empty) active profile is not itself a checker profile; consequently a
checker profile is never gated, and a non-checker profile calling a mutating
tool on `aws_terraform` is always gated when a checker is configured. -/
theorem should_gate_characterization (env : RolesEnv) (tool_name backend p current : String)
    (hp : p ≠ "") :
    (maker_checker_should_gate env tool_name (some backend) (some p) current = true ↔
      backend = "aws_terraform" ∧ is_mutating_tool tool_name = true ∧
      checker_profiles env ≠ [] ∧ is_checker_profile env p = false) ∧
    (is_checker_profile env p = true →
      maker_checker_should_gate env tool_name (some backend) (some p) current = false) ∧
    (is_mutating_tool tool_name = true → checker_profiles env ≠ [] →
      is_checker_profile env p = false →
      maker_checker_should_gate env tool_name (some ("aws_terraform")) (some p) current = true) := by
  refine ⟨gate_iff_aux env tool_name backend p current hp, ?_, ?_⟩
  · intro hck
    cases hg : maker_checker_should_gate env tool_name (some backend) (some p) current
    · rfl
    · have := ((gate_iff_aux env tool_name backend p current hp).mp hg).2.2.2
      rw [hck] at this
      exact absurd this (by simp)
  · intro h1 h2 h3
    exact (gate_iff_aux env tool_name ("aws_terraform") p current hp).mpr ⟨rfl, h1, h2, h3⟩

/-- Witness for C3 at a concrete configuration. -/
theorem should_gate_characterization_witness :
    maker_checker_should_gate
      (RolesEnv.mk (["audit-profile"]) none none (some ("default")))
      ("terraform_apply") (some ("aws_terraform")) (some ("dev-profile"))
      ("default") = true :=
  (should_gate_characterization
      (RolesEnv.mk (["audit-profile"]) none none (some ("default")))
      ("terraform_apply") ("aws_terraform") ("dev-profile") ("default")
      (by decide)).2.2 (by decide) (by decide) (by decide)

/-- C10: the effective checker set is never empty — when the in-memory role
configuration normalizes to no checkers it falls back to the env-configured
profiles, and failing those to the process `AWS_PROFILE` (default
`"default"`); hence the gate's `not _checker_profiles()` early return is
unreachable, and on a fully unconfigured system a mutating `aws_terraform`
call under a profile other than the `AWS_PROFILE` fallback is gated. -/
theorem checker_fallback_nonempty (env : RolesEnv) :
    checker_profiles env ≠ [] ∧
    (normalize_profiles env.config_checker_profiles = [] →
      checker_profiles env = default_checker_profiles env) ∧
    (normalize_profiles env.config_checker_profiles = [] →
     parse_profile_list env.env_checkers_many = [] →
     parse_profile_list env.env_checkers_one = [] →
      checker_profiles env = [env.aws_profile.getD ("default")]) ∧
    (∀ tool_name p current,
      normalize_profiles env.config_checker_profiles = [] →
      parse_profile_list env.env_checkers_many = [] →
      parse_profile_list env.env_checkers_one = [] →
      is_mutating_tool tool_name = true →
      p ≠ "" →
      trimStr p ≠ env.aws_profile.getD ("default") →
      maker_checker_should_gate env tool_name (some ("aws_terraform")) (some p) current = true) := by
  have hdef : default_checker_profiles env ≠ [] := by
    unfold default_checker_profiles
    by_cases hc : normalize_profiles
        (parse_profile_list env.env_checkers_many ++ parse_profile_list env.env_checkers_one) = []
    · simp [hc]
    · simp [hc]
  have hfall : normalize_profiles env.config_checker_profiles = [] →
      checker_profiles env = default_checker_profiles env := by
    intro h
    unfold checker_profiles
    simp [h]
  have hne : checker_profiles env ≠ [] := by
    unfold checker_profiles
    by_cases hv : normalize_profiles env.config_checker_profiles = []
    · simpa [hv] using hdef
    · simp [hv]
  have hsingle : normalize_profiles env.config_checker_profiles = [] →
      parse_profile_list env.env_checkers_many = [] →
      parse_profile_list env.env_checkers_one = [] →
      checker_profiles env = [env.aws_profile.getD ("default")] := by
    intro h1 h2 h3
    rw [hfall h1]
    unfold default_checker_profiles
    simp [h2, h3, normalize_profiles]
  refine ⟨hne, hfall, hsingle, ?_⟩
  intro tool_name p current h1 h2 h3 hmut hp hne'
  have hck := hsingle h1 h2 h3
  have hnotck : is_checker_profile env p = false := by
    unfold is_checker_profile
    rw [hck]
    simp [hne']
  exact (gate_iff_aux env tool_name ("aws_terraform") p current hp).mpr ⟨rfl, hmut, hne, hnotck⟩

/-- Witness for C10 on a fully unconfigured system. -/
theorem checker_fallback_nonempty_witness :
    maker_checker_should_gate (RolesEnv.mk [] none none (some ("default")))
      ("create_s3_bucket") (some ("aws_terraform")) (some ("dev-profile"))
      ("default") = true :=
  (checker_fallback_nonempty (RolesEnv.mk [] none none (some ("default")))).2.2.2
    ("create_s3_bucket") ("dev-profile") ("default")
    (by decide) (by decide) (by decide) (by decide) (by decide) (by decide)

/-! ## Maker-checker store and state machine — src/bin/agui_server.py -/

/-- Python `", ".join(items)`. -/
def joinComma : List String → String
  | [] => ""
  | [a] => a
  | a :: b :: rest => a ++ ", " ++ joinComma (b :: rest)

/-- The uniform `{success, error, ...}` result shape returned by
`execute_tool` (only the fields the maker-checker code reads). -/
structure ToolResult where
  success : Bool
  error : Option String
deriving DecidableEq

/-- One entry of an `ApprovalRequest` comment thread. Timestamps are
abstracted as naturals supplied by the caller (`_utc_iso_now`). -/
structure MCComment where
  timestamp : Nat
  author_profile : String
  author_role : String
  message : String
deriving DecidableEq

/-- The `ApprovalRequest` dict built by `_create_maker_checker_request`.
Tool arguments are modelled as an association list. -/
structure MCRequest where
  request_id : String
  created_at : Nat
  updated_at : Nat
  run_id : String
  thread_id : String
  requester_profile : String
  checker_profiles_snapshot : List String
  checker_profile : String
  tool_name : String
  tool_args : List (String × String)
  mcp_server : String
  status : String
  approval_notes : String
  approved_at : Option Nat
  rejected_at : Option Nat
  executed_at : Option Nat
  plan_preview : String
  execution_result : Option ToolResult
  execution_error : Option String
  comments : List MCComment
deriving DecidableEq

/-- The in-memory `maker_checker_requests` registry keyed by request id. -/
def MCStore : Type := List (String × MCRequest)

/-- Outcome of a maker-checker endpoint: the JSON response is either
`{success: true, request: ...}` or `{success: false, error: ...}`. -/
inductive MCOutcome where
  | ok (request : MCRequest)
  | err (error : String)
deriving DecidableEq

/-- `true` iff the endpoint answered `{success: true}`. -/
def MCOutcome.isOk : MCOutcome → Bool
  | .ok _ => true
  | .err _ => false

/-- The `status` field of a successful response, `none` on failure. -/
def MCOutcome.statusOf : MCOutcome → Option String
  | .ok r => some r.status
  | .err _ => none

/-- `_create_maker_checker_request` (the plan-preview collaborator is
abstracted as the `plan_preview` argument; the code derives it from
`terraform show` side effects). -/
def create_maker_checker_request (env : RolesEnv) (request_id : String)
    (run_id thread_id tool_name : String) (tool_args : List (String × String))
    (mcp_server requester_message : String) (requester_profile : Option String)
    (current : String) (plan_preview : String) (now : Nat)
    (store : MCStore) : MCRequest × MCStore :=
  let effective_requester := match requester_profile with
    | some p => if p = "" then current else p
    | none => current
  let comments : List MCComment :=
    if requester_message ≠ "" then
      [MCComment.mk now effective_requester ("maker") requester_message]
    else []
  let item : MCRequest := {
    request_id := request_id
    created_at := now
    updated_at := now
    run_id := run_id
    thread_id := thread_id
    requester_profile := effective_requester
    checker_profiles_snapshot := checker_profiles env
    checker_profile := primary_checker_profile env
    tool_name := tool_name
    tool_args := tool_args
    mcp_server := mcp_server
    status := "pending"
    approval_notes := ""
    approved_at := none
    rejected_at := none
    executed_at := none
    plan_preview := plan_preview
    execution_result := none
    execution_error := none
    comments := comments }
  (item, putA store request_id item)

/-- `approve_maker_checker_request` from src/bin/agui_server.py: requires the
acting (current) profile to be in the live checker configuration, requires
`status == "pending"`, then sets `status = "approved"`, `approved_at`, notes
and an optional checker comment. -/
def approve_maker_checker_request (env : RolesEnv) (store : MCStore)
    (request_id notes current : String) (now : Nat) : MCOutcome × MCStore :=
  if !is_checker_profile env current then
    (.err ("Approval requires checker profile (" ++ joinComma (checker_profiles env)
        ++ "). Current profile is '" ++ current ++ "'."), store)
  else
    match lookupA store request_id with
    | none => (.err ("Request '" ++ request_id ++ "' not found."), store)
    | some item =>
      if item.status ≠ "pending" then
        (.err ("Request '" ++ request_id ++ "' is not pending."), store)
      else
        let item' := { item with
          status := "approved"
          approval_notes := notes
          approved_at := some now
          updated_at := now
          comments := item.comments ++
            (if notes ≠ "" then [MCComment.mk now current ("checker") notes] else []) }
        (.ok item', putA store request_id item')

/-- `reject_maker_checker_request` from src/bin/agui_server.py (symmetric to
approve; sets `status = "rejected"` and `rejected_at`). -/
def reject_maker_checker_request (env : RolesEnv) (store : MCStore)
    (request_id notes current : String) (now : Nat) : MCOutcome × MCStore :=
  if !is_checker_profile env current then
    (.err ("Rejection requires checker profile (" ++ joinComma (checker_profiles env)
        ++ "). Current profile is '" ++ current ++ "'."), store)
  else
    match lookupA store request_id with
    | none => (.err ("Request '" ++ request_id ++ "' not found."), store)
    | some item =>
      if item.status ≠ "pending" then
        (.err ("Request '" ++ request_id ++ "' is not pending."), store)
      else
        let item' := { item with
          status := "rejected"
          approval_notes := notes
          rejected_at := some now
          updated_at := now
          comments := item.comments ++
            (if notes ≠ "" then [MCComment.mk now current ("checker") notes] else []) }
        (.ok item', putA store request_id item')

/-! ## Credential/profile context — src/bin/agui_server.py -/

/-- The process environment slots touched by `_activate_profile`:
`AWS_PROFILE`, `AWS_DEFAULT_PROFILE`, and whether any of the static
credential variables (`AWS_ACCESS_KEY_ID` / `AWS_SECRET_ACCESS_KEY` /
`AWS_SESSION_TOKEN`) are present.  `_reset_aws_context` only clears cached
client objects and carries no data, so it is not modelled. -/
structure ProcEnv where
  aws_profile : Option String
  aws_default_profile : Option String
  static_creds : Bool
deriving DecidableEq

/-- `_activate_profile`: set both profile variables, pop the static
credential variables. -/
def activate_profile (profile : String) (_e : ProcEnv) : ProcEnv :=
  { aws_profile := some profile
    aws_default_profile := some profile
    static_creds := false }

/-- Process-wide profile state plus the per-client override map
`client_active_profiles`. -/
structure ServerState where
  env : ProcEnv
  clients : List (String × String)
deriving DecidableEq

/-- `_current_profile`: per-client override when the request carries a client
key and a non-empty override exists, else `AWS_PROFILE` (default
`"default"`). -/
def current_profile (st : ServerState) (client_key : Option String) : String :=
  match client_key with
  | some key =>
    match lookupA st.clients key with
    | some p => if p = "" then st.env.aws_profile.getD ("default") else p
    | none => st.env.aws_profile.getD ("default")
  | none => st.env.aws_profile.getD ("default")

/-- `execute_maker_checker_request` from src/bin/agui_server.py.  The MCP
backend registry is abstracted as `mcp_available` (whether
`get_mcp_server(item.mcp_server)` resolves) and the Tool Executor as
`executor`, a function of the process environment in effect at call time and
the stored tool name/arguments; a raised exception is modelled as
`Except.error`.  The scoped credential swap activates the primary checker
profile, runs the executor, and always re-activates the previous profile. -/
def execute_maker_checker_request (env : RolesEnv) (store : MCStore)
    (st : ServerState) (request_id notes : String) (client_key : Option String)
    (mcp_available : String → Bool)
    (executor : ProcEnv → String → List (String × String) → Except String ToolResult)
    (now : Nat) : MCOutcome × MCStore × ServerState :=
  match lookupA store request_id with
  | none => (.err ("Request '" ++ request_id ++ "' not found."), store, st)
  | some item =>
    if item.status ≠ "approved" then
      (.err ("Request '" ++ request_id ++ "' is not approved yet."), store, st)
    else
      let current := current_profile st client_key
      let item1 := { item with
        status := "executing"
        updated_at := now
        comments := item.comments ++
          (if notes ≠ "" then
            [MCComment.mk now current
              (if is_checker_profile env current then "checker" else "maker") notes]
           else []) }
      if !mcp_available item.mcp_server then
        let msg := "MCP server '" ++ item.mcp_server ++ "' not available."
        let item2 := { item1 with
          status := "failed"
          execution_error := some msg
          updated_at := now }
        (.err msg, putA store request_id item2, st)
      else
        let previous_profile := current_profile st client_key
        let checker_target := primary_checker_profile env
        let stActivated :=
          if checker_target = "" then st
          else { st with env := activate_profile checker_target st.env }
        let result := match executor stActivated.env item.tool_name item.tool_args with
          | .ok r => r
          | .error e => ToolResult.mk false (some e)
        let stRestored := { stActivated with
          env := activate_profile previous_profile stActivated.env }
        let exec_error := match result.error with
          | some e => if e = "" then "Execution failed." else e
          | none => "Execution failed."
        let item2 := { item1 with
          execution_result := some result
          executed_at := some now
          updated_at := now
          status := if result.success then "executed" else "failed"
          execution_error :=
            if result.success then item1.execution_error else some exec_error }
        (.ok item2, putA store request_id item2, stRestored)

/-! ## State-machine lemmas for the maker-checker endpoints -/

theorem lookupA_putA_self {α β : Type} [DecidableEq α]
    (m : List (α × β)) (k : α) (v : β) : lookupA (putA m k v) k = some v := by
  induction m with
  | nil => simp [putA, lookupA]
  | cons hd tl ih =>
    obtain ⟨k', w⟩ := hd
    by_cases hk : k' = k
    · subst hk
      simp [putA, lookupA]
    · simp [putA, lookupA, hk, ih]

/-- The record update performed by a successful approve. -/
def approvedItemOf (item : MCRequest) (notes current : String) (now : Nat) : MCRequest :=
  { item with
    status := "approved"
    approval_notes := notes
    approved_at := some now
    updated_at := now
    comments := item.comments ++
      (if notes ≠ "" then [MCComment.mk now current ("checker") notes] else []) }

/-- The record update performed by a successful reject. -/
def rejectedItemOf (item : MCRequest) (notes current : String) (now : Nat) : MCRequest :=
  { item with
    status := "rejected"
    approval_notes := notes
    rejected_at := some now
    updated_at := now
    comments := item.comments ++
      (if notes ≠ "" then [MCComment.mk now current ("checker") notes] else []) }

theorem approve_not_checker (env : RolesEnv) (store : MCStore)
    (rid notes current : String) (now : Nat)
    (h : is_checker_profile env current = false) :
    approve_maker_checker_request env store rid notes current now =
      (.err ("Approval requires checker profile (" ++ joinComma (checker_profiles env)
        ++ "). Current profile is '" ++ current ++ "'."), store) := by
  unfold approve_maker_checker_request
  simp [h]

theorem approve_not_pending (env : RolesEnv) (store : MCStore)
    (rid notes current : String) (now : Nat) (item : MCRequest)
    (hck : is_checker_profile env current = true)
    (hlook : lookupA store rid = some item)
    (hst : item.status ≠ "pending") :
    approve_maker_checker_request env store rid notes current now =
      (.err ("Request '" ++ rid ++ "' is not pending."), store) := by
  unfold approve_maker_checker_request
  simp [hck, hlook, hst]

theorem approve_pending_ok (env : RolesEnv) (store : MCStore)
    (rid notes current : String) (now : Nat) (item : MCRequest)
    (hck : is_checker_profile env current = true)
    (hlook : lookupA store rid = some item)
    (hst : item.status = "pending") :
    approve_maker_checker_request env store rid notes current now =
      (.ok (approvedItemOf item notes current now),
        putA store rid (approvedItemOf item notes current now)) := by
  unfold approve_maker_checker_request approvedItemOf
  simp [hck, hlook, hst]

theorem approve_ok_inv (env : RolesEnv) (store : MCStore)
    (rid notes current : String) (now : Nat) (r : MCRequest) (store' : MCStore)
    (h : approve_maker_checker_request env store rid notes current now = (.ok r, store')) :
    is_checker_profile env current = true ∧
    ∃ item, lookupA store rid = some item ∧ item.status = "pending" ∧
      r = approvedItemOf item notes current now ∧ store' = putA store rid r := by
  by_cases hck : is_checker_profile env current = true
  · refine ⟨hck, ?_⟩
    cases hlook : lookupA store rid with
    | none =>
      unfold approve_maker_checker_request at h
      simp [hck, hlook] at h
    | some item =>
      by_cases hst : item.status = "pending"
      · rw [approve_pending_ok env store rid notes current now item hck hlook hst] at h
        injection h with h1 h2
        injection h1 with h1
        subst h1
        exact ⟨item, rfl, hst, rfl, h2.symm⟩
      · rw [approve_not_pending env store rid notes current now item hck hlook hst] at h
        simp at h
  · rw [approve_not_checker env store rid notes current now (by simpa using hck)] at h
    simp at h

theorem reject_not_checker (env : RolesEnv) (store : MCStore)
    (rid notes current : String) (now : Nat)
    (h : is_checker_profile env current = false) :
    reject_maker_checker_request env store rid notes current now =
      (.err ("Rejection requires checker profile (" ++ joinComma (checker_profiles env)
        ++ "). Current profile is '" ++ current ++ "'."), store) := by
  unfold reject_maker_checker_request
  simp [h]

theorem reject_not_pending (env : RolesEnv) (store : MCStore)
    (rid notes current : String) (now : Nat) (item : MCRequest)
    (hck : is_checker_profile env current = true)
    (hlook : lookupA store rid = some item)
    (hst : item.status ≠ "pending") :
    reject_maker_checker_request env store rid notes current now =
      (.err ("Request '" ++ rid ++ "' is not pending."), store) := by
  unfold reject_maker_checker_request
  simp [hck, hlook, hst]

theorem reject_pending_ok (env : RolesEnv) (store : MCStore)
    (rid notes current : String) (now : Nat) (item : MCRequest)
    (hck : is_checker_profile env current = true)
    (hlook : lookupA store rid = some item)
    (hst : item.status = "pending") :
    reject_maker_checker_request env store rid notes current now =
      (.ok (rejectedItemOf item notes current now),
        putA store rid (rejectedItemOf item notes current now)) := by
  unfold reject_maker_checker_request rejectedItemOf
  simp [hck, hlook, hst]

theorem reject_ok_inv (env : RolesEnv) (store : MCStore)
    (rid notes current : String) (now : Nat) (r : MCRequest) (store' : MCStore)
    (h : reject_maker_checker_request env store rid notes current now = (.ok r, store')) :
    is_checker_profile env current = true ∧
    ∃ item, lookupA store rid = some item ∧ item.status = "pending" ∧
      r = rejectedItemOf item notes current now ∧ store' = putA store rid r := by
  by_cases hck : is_checker_profile env current = true
  · refine ⟨hck, ?_⟩
    cases hlook : lookupA store rid with
    | none =>
      unfold reject_maker_checker_request at h
      simp [hck, hlook] at h
    | some item =>
      by_cases hst : item.status = "pending"
      · rw [reject_pending_ok env store rid notes current now item hck hlook hst] at h
        injection h with h1 h2
        injection h1 with h1
        subst h1
        exact ⟨item, rfl, hst, rfl, h2.symm⟩
      · rw [reject_not_pending env store rid notes current now item hck hlook hst] at h
        simp at h
  · rw [reject_not_checker env store rid notes current now (by simpa using hck)] at h
    simp at h

theorem execute_not_approved (env : RolesEnv) (store : MCStore) (st : ServerState)
    (rid notes : String) (ck : Option String) (avail : String → Bool)
    (executor : ProcEnv → String → List (String × String) → Except String ToolResult)
    (now : Nat) (item : MCRequest)
    (hlook : lookupA store rid = some item)
    (hst : item.status ≠ "approved") :
    execute_maker_checker_request env store st rid notes ck avail executor now =
      (.err ("Request '" ++ rid ++ "' is not approved yet."), store, st) := by
  unfold execute_maker_checker_request
  simp [hlook, hst]

/-- The Tool Executor result obtained by the execute endpoint: the executor is
invoked with the process environment produced by activating the primary
checker profile, and a raised exception becomes `{success: false, error}`. -/
def executorResultOf (env : RolesEnv) (st : ServerState)
    (executor : ProcEnv → String → List (String × String) → Except String ToolResult)
    (item : MCRequest) : ToolResult :=
  match executor (activate_profile (primary_checker_profile env) st.env)
      item.tool_name item.tool_args with
  | .ok r => r
  | .error e => ToolResult.mk false (some e)

/-- `result.get("error") or "Execution failed."`. -/
def execErrorOf (r : ToolResult) : String :=
  match r.error with
  | some e => if e = "" then "Execution failed." else e
  | none => "Execution failed."

/-- The intermediate `status = "executing"` update of the execute endpoint. -/
def executingItemOf (env : RolesEnv) (st : ServerState) (ck : Option String)
    (notes : String) (now : Nat) (item : MCRequest) : MCRequest :=
  { item with
    status := "executing"
    updated_at := now
    comments := item.comments ++
      (if notes ≠ "" then
        [MCComment.mk now (current_profile st ck)
          (if is_checker_profile env (current_profile st ck) then "checker" else "maker")
          notes]
       else []) }

/-- The final record produced by the execute endpoint on the available-backend
path. -/
def executedItemOf (env : RolesEnv) (st : ServerState) (ck : Option String)
    (executor : ProcEnv → String → List (String × String) → Except String ToolResult)
    (notes : String) (now : Nat) (item : MCRequest) : MCRequest :=
  let result := executorResultOf env st executor item
  { executingItemOf env st ck notes now item with
    execution_result := some result
    executed_at := some now
    updated_at := now
    status := if result.success then "executed" else "failed"
    execution_error :=
      if result.success then (executingItemOf env st ck notes now item).execution_error
      else some (execErrorOf result) }

theorem execute_approved_ok (env : RolesEnv) (store : MCStore) (st : ServerState)
    (rid notes : String) (ck : Option String) (avail : String → Bool)
    (executor : ProcEnv → String → List (String × String) → Except String ToolResult)
    (now : Nat) (item : MCRequest)
    (hlook : lookupA store rid = some item)
    (hst : item.status = "approved")
    (havail : avail item.mcp_server = true)
    (hck : primary_checker_profile env ≠ "") :
    execute_maker_checker_request env store st rid notes ck avail executor now =
      (.ok (executedItemOf env st ck executor notes now item),
       putA store rid (executedItemOf env st ck executor notes now item),
       { st with env := activate_profile (current_profile st ck) st.env }) := by
  unfold execute_maker_checker_request
  rw [hlook]
  simp only [hst, ne_eq, not_true_eq_false, if_false, havail, Bool.not_true,
    Bool.false_eq_true, hck]
  unfold executedItemOf executingItemOf executorResultOf execErrorOf activate_profile
  rfl

theorem execute_ok_inv (env : RolesEnv) (store : MCStore) (st : ServerState)
    (rid notes : String) (ck : Option String) (avail : String → Bool)
    (executor : ProcEnv → String → List (String × String) → Except String ToolResult)
    (now : Nat) (item : MCRequest) (r : MCRequest) (store' : MCStore) (st' : ServerState)
    (hlook : lookupA store rid = some item)
    (h : execute_maker_checker_request env store st rid notes ck avail executor now =
      (.ok r, store', st')) :
    item.status = "approved" := by
  by_cases hst : item.status = "approved"
  · exact hst
  · rw [execute_not_approved env store st rid notes ck avail executor now item hlook hst] at h
    simp at h

/-- C4: for an approved request with an available backend and a configured
checker, Execute invokes the Tool Executor under the process environment in
which the primary checker profile has been activated, re-activates the
previously current profile afterwards whatever the executor did (success,
failure or raised exception are all instances of `executor`), and sets
`status = "executed"` exactly when the executor result has `success = true`,
else `status = "failed"` with `execution_error` taken from the result's
non-empty `error` field. -/
theorem execute_credential_swap_and_status
    (env : RolesEnv) (store : MCStore) (st : ServerState) (rid notes : String)
    (ck : Option String) (avail : String → Bool)
    (executor : ProcEnv → String → List (String × String) → Except String ToolResult)
    (now : Nat) (item : MCRequest)
    (hlook : lookupA store rid = some item)
    (hst : item.status = "approved")
    (havail : avail item.mcp_server = true)
    (hck : primary_checker_profile env ≠ "") :
    (execute_maker_checker_request env store st rid notes ck avail executor now).2.2.env =
      activate_profile (current_profile st ck) st.env ∧
    (execute_maker_checker_request env store st rid notes ck avail executor now).1 =
      .ok (executedItemOf env st ck executor notes now item) ∧
    (executedItemOf env st ck executor notes now item).execution_result =
      some (executorResultOf env st executor item) ∧
    ((executedItemOf env st ck executor notes now item).status = "executed" ↔
      (executorResultOf env st executor item).success = true) ∧
    ((executorResultOf env st executor item).success = false →
      (executedItemOf env st ck executor notes now item).status = "failed") ∧
    ((executorResultOf env st executor item).success = false →
      ∀ e, (executorResultOf env st executor item).error = some e → e ≠ "" →
        (executedItemOf env st ck executor notes now item).execution_error = some e) := by
  have hmain := execute_approved_ok env store st rid notes ck avail executor now item
    hlook hst havail hck
  refine ⟨by rw [hmain], by rw [hmain], by simp [executedItemOf], ?_, ?_, ?_⟩
  · unfold executedItemOf
    cases hsucc : (executorResultOf env st executor item).success
    · simp [hsucc]
    · simp [hsucc]
  · intro hsucc
    unfold executedItemOf
    simp [hsucc]
  · intro hsucc e he hne
    unfold executedItemOf
    simp only [hsucc, Bool.false_eq_true, if_false]
    unfold execErrorOf
    rw [he]
    simp [hne]

/-- Witness for C4 with a concrete approved request and executor. -/
theorem execute_credential_swap_and_status_witness :
    (execute_maker_checker_request
        (RolesEnv.mk (["audit-profile"]) none none (some ("default")))
        ([("mc-9", MCRequest.mk ("mc-9") 0 0 ("r") ("t") ("dev") (["audit-profile"])
            ("audit-profile") ("terraform_apply") [] ("aws_terraform") ("approved")
            ("") (some 1) none none ("") none none [])])
        (ServerState.mk (ProcEnv.mk (some ("dev")) (some ("dev")) true) [])
        ("mc-9") ("") none (fun _ => true)
        (fun _ _ _ => .error ("boom")) 3).2.2.env =
      activate_profile ("dev")
        (ProcEnv.mk (some ("dev")) (some ("dev")) true) :=
  (execute_credential_swap_and_status
      (RolesEnv.mk (["audit-profile"]) none none (some ("default")))
      ([("mc-9", MCRequest.mk ("mc-9") 0 0 ("r") ("t") ("dev") (["audit-profile"])
          ("audit-profile") ("terraform_apply") [] ("aws_terraform") ("approved")
          ("") (some 1) none none ("") none none [])])
      (ServerState.mk (ProcEnv.mk (some ("dev")) (some ("dev")) true) [])
      ("mc-9") ("") none (fun _ => true)
      (fun _ _ _ => .error ("boom")) 3
      (MCRequest.mk ("mc-9") 0 0 ("r") ("t") ("dev") (["audit-profile"])
          ("audit-profile") ("terraform_apply") [] ("aws_terraform") ("approved")
          ("") (some 1) none none ("") none none [])
      (by decide) (by decide) (by decide) (by decide)).1

/-- C2: approve and reject succeed only from `pending`, execute only from
`approved`; an operation attempted in any other state returns an error and
leaves the whole store (hence the request's status and terminal fields)
unchanged; after a successful approve the terminal fields are set and any
further approve/reject fails without modifying the store, so `approved_at` /
`rejected_at` are each set at most once. -/
theorem mc_state_machine_monotonic
    (env : RolesEnv) (store : MCStore) (st : ServerState)
    (rid notes current notes2 cur2 : String) (ck : Option String)
    (avail : String → Bool)
    (executor : ProcEnv → String → List (String × String) → Except String ToolResult)
    (now now2 : Nat) (item : MCRequest)
    (hlook : lookupA store rid = some item) :
    (item.status ≠ "pending" →
      (∃ msg, approve_maker_checker_request env store rid notes current now = (.err msg, store)) ∧
      (∃ msg, reject_maker_checker_request env store rid notes current now = (.err msg, store))) ∧
    (item.status ≠ "approved" →
      execute_maker_checker_request env store st rid notes ck avail executor now =
        (.err ("Request '" ++ rid ++ "' is not approved yet."), store, st)) ∧
    (∀ r store', approve_maker_checker_request env store rid notes current now = (.ok r, store') →
      item.status = "pending" ∧ r.status = "approved" ∧ r.approved_at = some now ∧
      r.rejected_at = item.rejected_at ∧
      (∃ msg, approve_maker_checker_request env store' rid notes2 cur2 now2 = (.err msg, store')) ∧
      (∃ msg, reject_maker_checker_request env store' rid notes2 cur2 now2 = (.err msg, store'))) ∧
    (∀ r store', reject_maker_checker_request env store rid notes current now = (.ok r, store') →
      item.status = "pending" ∧ r.status = "rejected" ∧ r.rejected_at = some now ∧
      r.approved_at = item.approved_at ∧
      (∃ msg, approve_maker_checker_request env store' rid notes2 cur2 now2 = (.err msg, store')) ∧
      (∃ msg, reject_maker_checker_request env store' rid notes2 cur2 now2 = (.err msg, store'))) ∧
    (∀ r store' st',
      execute_maker_checker_request env store st rid notes ck avail executor now =
        (.ok r, store', st') → item.status = "approved") := by
  have blocked : ∀ (store₂ : MCStore) (item₂ : MCRequest) (notes₃ cur₃ : String) (now₃ : Nat),
      lookupA store₂ rid = some item₂ → item₂.status ≠ "pending" →
      (∃ msg, approve_maker_checker_request env store₂ rid notes₃ cur₃ now₃ = (.err msg, store₂)) ∧
      (∃ msg, reject_maker_checker_request env store₂ rid notes₃ cur₃ now₃ = (.err msg, store₂)) := by
    intro store₂ item₂ notes₃ cur₃ now₃ hl hs
    cases hc : is_checker_profile env cur₃ with
    | false =>
      exact ⟨⟨_, approve_not_checker env store₂ rid notes₃ cur₃ now₃ hc⟩,
        ⟨_, reject_not_checker env store₂ rid notes₃ cur₃ now₃ hc⟩⟩
    | true =>
      exact ⟨⟨_, approve_not_pending env store₂ rid notes₃ cur₃ now₃ item₂ hc hl hs⟩,
        ⟨_, reject_not_pending env store₂ rid notes₃ cur₃ now₃ item₂ hc hl hs⟩⟩
  refine ⟨fun hs => blocked store item notes current now hlook hs,
    fun hs => execute_not_approved env store st rid notes ck avail executor now item hlook hs,
    ?_, ?_, fun r store' st' h => execute_ok_inv env store st rid notes ck avail executor
      now item r store' st' hlook h⟩
  · intro r store' h
    obtain ⟨hck, item', hl', hp', hr, hst'⟩ := approve_ok_inv env store rid notes current now r store' h
    rw [hlook] at hl'
    injection hl' with hl'
    subst hl'
    subst hr
    refine ⟨hp', by simp [approvedItemOf], by simp [approvedItemOf], by simp [approvedItemOf], ?_⟩
    subst hst'
    exact blocked _ _ notes2 cur2 now2 (lookupA_putA_self store rid _)
      (by simp [approvedItemOf])
  · intro r store' h
    obtain ⟨hck, item', hl', hp', hr, hst'⟩ := reject_ok_inv env store rid notes current now r store' h
    rw [hlook] at hl'
    injection hl' with hl'
    subst hl'
    subst hr
    refine ⟨hp', by simp [rejectedItemOf], by simp [rejectedItemOf], by simp [rejectedItemOf], ?_⟩
    subst hst'
    exact blocked _ _ notes2 cur2 now2 (lookupA_putA_self store rid _)
      (by simp [rejectedItemOf])

/-- Witness for C2: approving an already-executed request fails and leaves
the store unchanged. -/
theorem mc_state_machine_monotonic_witness :
    ∃ msg, approve_maker_checker_request
        (RolesEnv.mk (["audit-profile"]) none none (some ("default")))
        ([("mc-2", MCRequest.mk ("mc-2") 0 0 ("r") ("t") ("dev") (["audit-profile"])
            ("audit-profile") ("terraform_apply") [] ("aws_terraform") ("executed")
            ("") (some 1) none (some 2) ("") none none [])])
        ("mc-2") ("") ("audit-profile") 9 =
      (.err msg,
        [("mc-2", MCRequest.mk ("mc-2") 0 0 ("r") ("t") ("dev") (["audit-profile"])
            ("audit-profile") ("terraform_apply") [] ("aws_terraform") ("executed")
            ("") (some 1) none (some 2) ("") none none [])]) :=
  ((mc_state_machine_monotonic
      (RolesEnv.mk (["audit-profile"]) none none (some ("default")))
      ([("mc-2", MCRequest.mk ("mc-2") 0 0 ("r") ("t") ("dev") (["audit-profile"])
          ("audit-profile") ("terraform_apply") [] ("aws_terraform") ("executed")
          ("") (some 1) none (some 2) ("") none none [])])
      (ServerState.mk (ProcEnv.mk (some ("default")) (some ("default")) false) [])
      ("mc-2") ("") ("audit-profile") ("") ("audit-profile") none (fun _ => true)
      (fun _ _ _ => .ok (ToolResult.mk true none)) 9 10
      (MCRequest.mk ("mc-2") 0 0 ("r") ("t") ("dev") (["audit-profile"])
          ("audit-profile") ("terraform_apply") [] ("aws_terraform") ("executed")
          ("") (some 1) none (some 2) ("") none none [])
      (by decide)).1 (by decide)).1

/-! ## Snapshot versus live checker configuration (approve authorization) -/

/-- A live role configuration in which only `alice` is a checker. -/
def liveEnvAlice : RolesEnv :=
  RolesEnv.mk (["alice"]) none none (some ("default"))

/-- A pending request whose checker set was snapshotted when `bob` (and only
`bob`) was the configured checker. -/
def snapshotItemBob : MCRequest :=
  MCRequest.mk ("mc-1") 0 0 ("r") ("t") ("dev") (["bob"]) ("bob")
    ("terraform_apply") [] ("aws_terraform") ("pending") ("")
    none none none ("") none none []

/-- Store holding only the snapshot request. -/
def snapshotStore : MCStore := [("mc-1", snapshotItemBob)]

/-- C1 counterexample: the approve endpoint authorizes against the LIVE
checker configuration, not the snapshot in the request.  `alice` is not in
the request's snapshotted checker set yet her approval succeeds, while `bob`
is in the snapshot but (having been removed from the configuration) is
rejected — the opposite of the claim on both sides. -/
theorem approve_snapshot_counterexample :
    snapshotItemBob.checker_profiles_snapshot.contains ("alice") = false ∧
    (approve_maker_checker_request liveEnvAlice snapshotStore ("mc-1") ("") ("alice") 5).1.statusOf
      = some ("approved") ∧
    snapshotItemBob.checker_profiles_snapshot.contains ("bob") = true ∧
    (approve_maker_checker_request liveEnvAlice snapshotStore ("mc-1") ("") ("bob") 5).1.isOk
      = false := by
  decide

/-- C1 amended: Approve fails with the not-authorized error unless the acting
profile is in the checker set configured at approval time (the live role
configuration), regardless of the checker set snapshotted into the request at
creation time; given a live checker, it succeeds exactly on `pending`
requests. -/
theorem approve_live_checker_authorization
    (env : RolesEnv) (store : MCStore) (rid notes current : String) (now : Nat) :
    ((approve_maker_checker_request env store rid notes current now).1.isOk = true ↔
      is_checker_profile env current = true ∧
      ∃ item, lookupA store rid = some item ∧ item.status = "pending") ∧
    (is_checker_profile env current = false →
      approve_maker_checker_request env store rid notes current now =
        (.err ("Approval requires checker profile (" ++ joinComma (checker_profiles env)
          ++ "). Current profile is '" ++ current ++ "'."), store)) := by
  constructor
  · constructor
    · intro hok
      rcases hres : approve_maker_checker_request env store rid notes current now with ⟨o, s⟩
      rw [hres] at hok
      cases o with
      | err m => simp [MCOutcome.isOk] at hok
      | ok r =>
        obtain ⟨hck, item, hl, hp, _, _⟩ :=
          approve_ok_inv env store rid notes current now r s hres
        exact ⟨hck, item, hl, hp⟩
    · rintro ⟨hck, item, hl, hp⟩
      rw [approve_pending_ok env store rid notes current now item hck hl hp]
      rfl
  · intro h
    exact approve_not_checker env store rid notes current now h

/-- Witness for C1 (amended): a profile in the live configuration but not in
the snapshot approves successfully. -/
theorem approve_live_checker_authorization_witness :
    (approve_maker_checker_request liveEnvAlice snapshotStore
        ("mc-1") ("") ("alice") 5).1.isOk = true :=
  (approve_live_checker_authorization liveEnvAlice snapshotStore
      ("mc-1") ("") ("alice") 5).1.mpr
    ⟨by decide, snapshotItemBob, by decide, by decide⟩

/-! ## Tool-call dedupe guardrail — src/bin/agui_server.py, run_agent.stream -/

/-- A tool call extracted from an LLM response.  Arguments are modelled as an
association list in canonical form (unique keys, sorted), so equality of
`args` coincides with equality of `json.dumps(args, sort_keys=True)`. -/
structure ToolCall where
  name : String
  args : List (String × String)
  call_id : String
deriving DecidableEq

/-- The dedupe signature `(tool_name, canonical-json(tool_args))`. -/
def toolSig (tc : ToolCall) : String × List (String × String) :=
  (tc.name, tc.args)

/-- The dedupe loop: walk the calls in order, skipping any whose signature was
already seen in this turn. -/
def dedupeAux : List (String × List (String × String)) → List ToolCall → List ToolCall
  | _, [] => []
  | seen, tc :: rest =>
    if toolSig tc ∈ seen then dedupeAux seen rest
    else tc :: dedupeAux (seen ++ [toolSig tc]) rest

/-- The dedupe guardrail applied to one LLM turn's tool calls. -/
def dedupe_tool_calls (calls : List ToolCall) : List ToolCall :=
  dedupeAux [] calls

theorem dedupeAux_sublist (calls : List ToolCall)
    (seen : List (String × List (String × String))) :
    (dedupeAux seen calls).Sublist calls := by
  induction calls generalizing seen with
  | nil => simp [dedupeAux]
  | cons tc rest ih =>
    unfold dedupeAux
    by_cases hs : toolSig tc ∈ seen
    · simp only [hs, if_true]
      exact (ih seen).cons tc
    · simp only [hs, if_false]
      exact (ih (seen ++ [toolSig tc])).cons₂ tc

theorem dedupeAux_not_seen (calls : List ToolCall)
    (seen : List (String × List (String × String)))
    (tc : ToolCall) (h : tc ∈ dedupeAux seen calls) : toolSig tc ∉ seen := by
  induction calls generalizing seen with
  | nil => simp [dedupeAux] at h
  | cons tc' rest ih =>
    unfold dedupeAux at h
    by_cases hs : toolSig tc' ∈ seen
    · simp only [hs, if_true] at h
      exact ih seen h
    · simp only [hs, if_false, List.mem_cons] at h
      rcases h with h | h
      · subst h
        exact hs
      · have := ih (seen ++ [toolSig tc']) h
        intro hmem
        exact this (List.mem_append_left _ hmem)

theorem dedupeAux_pairwise (calls : List ToolCall)
    (seen : List (String × List (String × String))) :
    (dedupeAux seen calls).Pairwise (fun a b => toolSig a ≠ toolSig b) := by
  induction calls generalizing seen with
  | nil => simp [dedupeAux]
  | cons tc rest ih =>
    unfold dedupeAux
    by_cases hs : toolSig tc ∈ seen
    · simp only [hs, if_true]
      exact ih seen
    · simp only [hs, if_false]
      refine List.Pairwise.cons ?_ (ih (seen ++ [toolSig tc]))
      intro b hb heq
      have := dedupeAux_not_seen rest (seen ++ [toolSig tc]) b hb
      exact this (heq ▸ List.mem_append_right _ (by simp))

theorem dedupeAux_covers (calls : List ToolCall)
    (seen : List (String × List (String × String)))
    (tc : ToolCall) (hmem : tc ∈ calls) (hns : toolSig tc ∉ seen) :
    ∃ tc' ∈ dedupeAux seen calls, toolSig tc' = toolSig tc := by
  induction calls generalizing seen with
  | nil => simp at hmem
  | cons tc' rest ih =>
    unfold dedupeAux
    rcases List.mem_cons.mp hmem with h | h
    · subst h
      simp only [hns, if_false]
      exact ⟨tc, List.mem_cons_self _ _, rfl⟩
    · by_cases hs : toolSig tc' ∈ seen
      · simp only [hs, if_true]
        exact ih seen h hns
      · simp only [hs, if_false]
        by_cases heq : toolSig tc = toolSig tc'
        · exact ⟨tc', List.mem_cons_self _ _, heq.symm⟩
        · have hns' : toolSig tc ∉ seen ++ [toolSig tc'] := by
            intro hmm
            rcases List.mem_append.mp hmm with hmm | hmm
            · exact hns hmm
            · simp at hmm
              exact heq hmm
          obtain ⟨u, hu, hus⟩ := ih (seen ++ [toolSig tc']) h hns'
          exact ⟨u, List.mem_cons_of_mem _ hu, hus⟩

theorem dedupeAux_id_of_distinct (calls : List ToolCall)
    (seen : List (String × List (String × String)))
    (hpw : calls.Pairwise (fun a b => toolSig a ≠ toolSig b))
    (hns : ∀ tc ∈ calls, toolSig tc ∉ seen) :
    dedupeAux seen calls = calls := by
  induction calls generalizing seen with
  | nil => simp [dedupeAux]
  | cons tc rest ih =>
    unfold dedupeAux
    have hs : toolSig tc ∉ seen := hns tc (List.mem_cons_self _ _)
    simp only [hs, if_false]
    obtain ⟨hhd, htl⟩ := List.pairwise_cons.mp hpw
    congr 1
    refine ih (seen ++ [toolSig tc]) htl ?_
    intro u hu hmm
    rcases List.mem_append.mp hmm with hmm | hmm
    · exact hns u (List.mem_cons_of_mem _ hu) hmm
    · simp at hmm
      exact hhd u hu hmm.symm

/-- C6: within one LLM turn, the dedupe guardrail keeps the calls in order as
a sublist of the turn's calls, the surviving calls have pairwise distinct
`(name, canonical-args)` signatures (so an identical call is executed at most
once per turn), every requested signature is still represented by exactly the
first call carrying it, and a turn whose calls already have pairwise distinct
signatures is passed through unchanged. -/
theorem toolcall_dedupe_spec (calls : List ToolCall) :
    (dedupe_tool_calls calls).Sublist calls ∧
    (dedupe_tool_calls calls).Pairwise (fun a b => toolSig a ≠ toolSig b) ∧
    (∀ tc ∈ calls, ∃ tc' ∈ dedupe_tool_calls calls, toolSig tc' = toolSig tc) ∧
    (calls.Pairwise (fun a b => toolSig a ≠ toolSig b) →
      dedupe_tool_calls calls = calls) := by
  refine ⟨dedupeAux_sublist calls [], dedupeAux_pairwise calls [], ?_, ?_⟩
  · intro tc hmem
    exact dedupeAux_covers calls [] tc hmem (by simp)
  · intro hpw
    exact dedupeAux_id_of_distinct calls [] hpw (by simp)

/-- Witness for C6: a repeated `terraform_apply` call is still represented
after dedupe. -/
theorem toolcall_dedupe_spec_witness :
    ∃ tc' ∈ dedupe_tool_calls
        [ToolCall.mk ("terraform_apply") ([("project_name", "p1")]) ("1"),
         ToolCall.mk ("terraform_apply") ([("project_name", "p1")]) ("2")],
      toolSig tc' = toolSig (ToolCall.mk ("terraform_apply") ([("project_name", "p1")]) ("2")) :=
  (toolcall_dedupe_spec
      [ToolCall.mk ("terraform_apply") ([("project_name", "p1")]) ("1"),
       ToolCall.mk ("terraform_apply") ([("project_name", "p1")]) ("2")]).2.2.1
    (ToolCall.mk ("terraform_apply") ([("project_name", "p1")]) ("2")) (by decide)

/-! ## Terraform apply dispatch — src/mcp_servers/aws_terraform/terraform.py -/

/-- The filesystem facts `TerraformManager` reads: whether the workspace
directory exists, and for each project directory whether a `tfplan` file is
currently saved in it. -/
structure TfWorkspace where
  workspace_exists : Bool
  dirs : List (String × Bool)
deriving DecidableEq

/-- `(workspace_dir / project_dir / "tfplan").exists()`. -/
def hasTfplan (fs : TfWorkspace) (project_dir : String) : Bool :=
  fs.workspace_exists && ((lookupA fs.dirs project_dir).getD false)

/-- Bool comparison used for Python `list.sort()` on strings. -/
def strLe (a b : String) : Bool := !decide (b < a)

/-- Insertion step of the sort. -/
def insertStr (a : String) : List String → List String
  | [] => [a]
  | b :: rest => if strLe a b then a :: b :: rest else b :: insertStr a rest

/-- Python `list.sort()` (insertion sort; only order, membership and
emptiness are relied on). -/
def sortStrs : List String → List String
  | [] => []
  | a :: rest => insertStr a (sortStrs rest)

/-- `TerraformManager._projects_with_tfplan`: the sorted names of workspace
project directories currently holding a `tfplan` file. -/
def projects_with_tfplan (fs : TfWorkspace) : List String :=
  if fs.workspace_exists = false then []
  else sortStrs ((fs.dirs.filter (fun pr => pr.2)).map (fun pr => pr.1))

/-- What `TerraformManager.apply` does before any post-processing: either it
runs a terraform command or it returns a `{success: false, error}` result
without running terraform. -/
inductive ApplyAction where
  | runTerraform (cmd : List String)
  | failResult (error : String)
deriving DecidableEq

/-- The dispatch of `TerraformManager.apply(project_dir, auto_approve)`:
use the saved plan when `tfplan` exists, else auto-approve when requested,
else fail with the hint list of projects that do have a plan. -/
def terraform_apply_action (fs : TfWorkspace) (project_dir : String)
    (auto_approve : Bool) : ApplyAction :=
  if hasTfplan fs project_dir = true then
    .runTerraform (["terraform", "apply", "-input=false", "tfplan"])
  else if auto_approve then
    .runTerraform (["terraform", "apply", "-auto-approve", "-input=false"])
  else
    let available := projects_with_tfplan fs
    if available ≠ [] then
      .failResult ("No tfplan file found for project '" ++ project_dir ++
        "'. Run terraform_plan first. Projects with an existing tfplan: " ++
        joinComma available ++ ".")
    else
      .failResult ("No tfplan file found. Please run terraform_plan first.")

theorem mem_joinComma_infix (q : String) (l : List String) (h : q ∈ l) :
    q.data <:+: (joinComma l).data := by
  induction l with
  | nil => simp at h
  | cons a rest ih =>
    cases rest with
    | nil =>
      simp at h
      subst h
      exact List.infix_refl _
    | cons b rest' =>
      rcases List.mem_cons.mp h with h | h
      · subst h
        refine List.IsPrefix.isInfix ?_
        show q.data <+: (q ++ ", " ++ joinComma (b :: rest')).data
        simp only [String.data_append, List.append_assoc]
        exact List.prefix_append _ _
      · have hmid := ih h
        refine List.IsInfix.trans hmid (List.IsSuffix.isInfix ?_)
        show (joinComma (b :: rest')).data <:+ (a ++ ", " ++ joinComma (b :: rest')).data
        simp only [String.data_append, List.append_assoc]
        exact (List.suffix_append _ _).trans (List.suffix_append _ _)

/-- C7: a Terraform apply without auto-approve on a project with no saved
`tfplan` returns a failure result without running terraform, and whenever any
workspace project does hold a `tfplan` the error message names at least one
such project; when the requested project has a saved `tfplan`, apply runs
terraform against that saved plan file. -/
theorem terraform_apply_requires_plan (fs : TfWorkspace) (p : String) :
    (hasTfplan fs p = true →
      terraform_apply_action fs p false =
        .runTerraform (["terraform", "apply", "-input=false", "tfplan"])) ∧
    (hasTfplan fs p = false →
      ∃ msg, terraform_apply_action fs p false = .failResult msg ∧
        (projects_with_tfplan fs ≠ [] →
          ∃ q ∈ projects_with_tfplan fs, strContains msg q = true)) := by
  constructor
  · intro h
    unfold terraform_apply_action
    simp [h]
  · intro h
    unfold terraform_apply_action
    by_cases hav : projects_with_tfplan fs ≠ []
    · simp only [h, Bool.false_eq_true, if_false, hav, if_true, ne_eq]
      refine ⟨_, rfl, fun _ => ?_⟩
      obtain ⟨q, hq⟩ := List.exists_mem_of_ne_nil _ hav
      refine ⟨q, hq, ?_⟩
      rw [strContains_iff]
      have h1 : q.data <:+: (joinComma (projects_with_tfplan fs)).data :=
        mem_joinComma_infix q _ hq
      refine h1.trans ?_
      show (joinComma (projects_with_tfplan fs)).data <:+:
        ("No tfplan file found for project '" ++ p ++
          "'. Run terraform_plan first. Projects with an existing tfplan: " ++
          joinComma (projects_with_tfplan fs) ++ ".").data
      refine ⟨("No tfplan file found for project '" ++ p ++
          "'. Run terraform_plan first. Projects with an existing tfplan: ").data,
        (".").data, ?_⟩
      simp [String.data_append]
    · have hav' : projects_with_tfplan fs = [] := not_not.mp (by simpa using hav)
      refine ⟨"No tfplan file found. Please run terraform_plan first.", ?_, ?_⟩
      · simp [h, hav']
      · intro hcon
        exact absurd hav' hcon

/-- Witness for C7: applying a project with no plan, while another project
holds one, fails with a hint naming a planned project. -/
theorem terraform_apply_requires_plan_witness :
    ∃ msg, terraform_apply_action
        (TfWorkspace.mk true ([("projA", false), ("projB", true)])) ("projA") false =
        .failResult msg ∧
      (projects_with_tfplan (TfWorkspace.mk true ([("projA", false), ("projB", true)])) ≠ [] →
        ∃ q ∈ projects_with_tfplan (TfWorkspace.mk true ([("projA", false), ("projB", true)])),
          strContains msg q = true) :=
  (terraform_apply_requires_plan
      (TfWorkspace.mk true ([("projA", false), ("projB", true)])) ("projA")).2 (by decide)

/-! ## Orchestration loop control — src/bin/agui_server.py, run_agent.stream -/

/-- An LLM response as seen by the loop: its text content and the extracted
tool calls. -/
structure LLMResponse where
  content : String
  tool_calls : List ToolCall
deriving DecidableEq

/-- The external collaborators of one loop run: the LLM (`respond k` is the
response of the `k`-th invocation, which runs with `iteration = k` because
the counter advances exactly on tool-calling turns) and the net effect that
processing the `k`-th turn's tool calls has on `forced_followup_text`
(queued-for-approval notices and `build_followup_message` results). -/
structure TurnOracle where
  respond : Nat → LLMResponse
  forcedUpdate : Nat → String → String

/-- Result of the `while iteration < max_iterations` loop: the last LLM
response bound to `response`, the final `forced_followup_text`, and the
final value of `iteration` (the number of tool-calling turns). -/
structure LoopOut where
  response : Option LLMResponse
  forced : String
  toolTurns : Nat
deriving DecidableEq

/-- The tool-calling loop with `fuel = max_iterations - iteration`: invoke
the LLM; stop with the response as final answer when it requests no tool
calls; otherwise process the calls, advance `iteration`, and continue. -/
def runLoopAux (o : TurnOracle) : Nat → Nat → String → Option LLMResponse → LoopOut
  | 0, iteration, forced, last => LoopOut.mk last forced iteration
  | fuel + 1, iteration, forced, _last =>
    let response := o.respond iteration
    if response.tool_calls = [] then LoopOut.mk (some response) forced iteration
    else runLoopAux o fuel (iteration + 1) (o.forcedUpdate iteration forced) (some response)

/-- `run_agent.stream`'s loop with `max_iterations = 5`, starting from
`iteration = 0` and empty `forced_followup_text`. -/
def run_agent_loop (o : TurnOracle) : LoopOut :=
  runLoopAux o 5 0 ("") none

/-- The final `response_text` selection after the loop: the last response's
content, overridden by a non-empty `forced_followup_text`, then replaced by a
synthetic fallback when blank. -/
def final_response_text (out : LoopOut) : String :=
  let response_text := match out.response with
    | some r => r.content
    | none => ""
  let response_text := if out.forced ≠ "" then out.forced else response_text
  if trimStr response_text = "" then
    match out.response with
    | some r =>
      if r.tool_calls ≠ [] then "I have initiated the infrastructure changes as requested."
      else "No response generated."
    | none => "No response generated."
  else response_text

theorem runLoopAux_turns_le (o : TurnOracle) (fuel iteration : Nat)
    (forced : String) (last : Option LLMResponse) :
    (runLoopAux o fuel iteration forced last).toolTurns ≤ iteration + fuel := by
  induction fuel generalizing iteration forced last with
  | zero => simp [runLoopAux]
  | succ n ih =>
    unfold runLoopAux
    by_cases hc : (o.respond iteration).tool_calls = []
    · simp only [hc, if_true]
      omega
    · simp only [hc, if_false]
      have := ih (iteration + 1) (o.forcedUpdate iteration forced) (some (o.respond iteration))
      omega

theorem runLoopAux_all_tools (o : TurnOracle) (fuel iteration : Nat)
    (forced : String) (last : Option LLMResponse)
    (h : ∀ k, iteration ≤ k → k < iteration + fuel → (o.respond k).tool_calls ≠ []) :
    (runLoopAux o fuel iteration forced last).toolTurns = iteration + fuel ∧
    (fuel = 0 → (runLoopAux o fuel iteration forced last).response = last) ∧
    (0 < fuel → (runLoopAux o fuel iteration forced last).response =
      some (o.respond (iteration + fuel - 1))) := by
  induction fuel generalizing iteration forced last with
  | zero => simp [runLoopAux]
  | succ n ih =>
    unfold runLoopAux
    have hc : (o.respond iteration).tool_calls ≠ [] := h iteration le_rfl (by omega)
    simp only [hc, if_false]
    have hnext : ∀ k, iteration + 1 ≤ k → k < iteration + 1 + n →
        (o.respond k).tool_calls ≠ [] := by
      intro k h1 h2
      exact h k (by omega) (by omega)
    obtain ⟨h1, h2, h3⟩ := ih (iteration + 1) (o.forcedUpdate iteration forced)
      (some (o.respond iteration)) hnext
    refine ⟨by omega, fun hz => absurd hz (by omega), ?_⟩
    intro _
    cases n with
    | zero =>
      rw [h2 rfl]
      simp
    | succ m =>
      rw [h3 (by omega)]
      congr 2
      omega

/-- C9: the loop performs at most 5 tool-calling iterations; when every turn
requests tool calls the loop hits the cap and simply stops — no error, and
the final answer is selected from the last LLM response (`respond 4`) — and
the final text is the last response's content, overridden by a non-empty
forced follow-up, and replaced by a synthetic fallback string when blank. -/
theorem orchestration_loop_cap_spec (o : TurnOracle) :
    (run_agent_loop o).toolTurns ≤ 5 ∧
    ((∀ k, k < 5 → (o.respond k).tool_calls ≠ []) →
      (run_agent_loop o).toolTurns = 5 ∧
      (run_agent_loop o).response = some (o.respond 4)) ∧
    ((run_agent_loop o).forced ≠ "" → trimStr (run_agent_loop o).forced ≠ "" →
      final_response_text (run_agent_loop o) = (run_agent_loop o).forced) ∧
    ((run_agent_loop o).forced = "" → ∀ r, (run_agent_loop o).response = some r →
      trimStr r.content ≠ "" → final_response_text (run_agent_loop o) = r.content) ∧
    ((run_agent_loop o).forced = "" → ∀ r, (run_agent_loop o).response = some r →
      trimStr r.content = "" →
      (final_response_text (run_agent_loop o) = "No response generated." ∨
       final_response_text (run_agent_loop o) =
         "I have initiated the infrastructure changes as requested.")) := by
  refine ⟨?_, ?_, ?_, ?_, ?_⟩
  · have := runLoopAux_turns_le o 5 0 ("") none
    simpa [run_agent_loop] using this
  · intro h
    have hall := runLoopAux_all_tools o 5 0 ("") none
      (by intro k h1 h2; exact h k (by omega))
    exact ⟨by simpa [run_agent_loop] using hall.1,
      by simpa [run_agent_loop] using hall.2.2 (by omega)⟩
  · intro hf htf
    simp [final_response_text, hf, htf]
  · intro hf r hr htc
    simp [final_response_text, hf, hr, htc]
  · intro hf r hr htc
    by_cases htool : r.tool_calls = []
    · left
      simp [final_response_text, hf, hr, htc, htool]
    · right
      simp [final_response_text, hf, hr, htc, htool]

/-- Witness for C9 with an oracle that immediately answers without tools. -/
theorem orchestration_loop_cap_spec_witness :
    final_response_text (run_agent_loop
      (TurnOracle.mk (fun _ => LLMResponse.mk ("done") []) (fun _ f => f))) = "done" :=
  (orchestration_loop_cap_spec
      (TurnOracle.mk (fun _ => LLMResponse.mk ("done") []) (fun _ f => f))).2.2.2.1
    (by decide) (LLMResponse.mk ("done") []) (by decide) (by decide)

/-! ## Audit reconstruction — src/bin/agui_server.py, _collect_audit_entries -/

/-- Python truthiness of an optional string (`None` and `""` are falsy). -/
def optTruthy : Option String → Bool
  | none => false
  | some s => s ≠ ""

/-- The fields of a `tool_result` dict read by the audit code
(`user_arn`/`account_id` stand for `tool_result["user_info"][...]`). -/
structure AuditResult where
  success : Bool
  error : Option String
  message : Option String
  stdout : Option String
  details : Option String
  user_arn : Option String
  account_id : Option String
  project_name : Option String
  resource_id : Option String
  workflow_id : Option String
deriving DecidableEq

/-- One JSON-line record of the workflow event log (only the fields the audit
scan reads; `tool_result = none` models a missing/empty dict, which is falsy
in Python). -/
structure AuditEvent where
  event_type : String
  run_id : String
  thread_id : String
  timestamp : String
  tool_name : String
  tool_call_id : String
  tool_args : List (String × String)
  tool_result : Option AuditResult
  success : Bool
  reason : Option String
  error : Option String
deriving DecidableEq

/-- A reconstructed audit row. -/
structure AuditEntry where
  timestamp : String
  run_id : String
  thread_id : String
  user : String
  cloud : String
  action : String
  resource : String
  status : String
  details : String
  tool_args : List (String × String)
deriving DecidableEq

/-- The scan state of `_collect_audit_entries`: `started_by_call`,
`actor_by_run` and the accumulated entries. -/
structure AuditState where
  started : List ((String × String) × List (String × String))
  actors : List (String × String)
  entries : List AuditEntry
deriving DecidableEq

/-- `_audit_is_mutating_tool`: the shared classifier plus the audit-specific
allow-list. -/
def AUDIT_EXTRA_TOOLS : List String :=
  ["create_ecs_service", "start_ecs_deployment_workflow",
   "update_ecs_deployment_workflow", "review_ecs_deployment_workflow",
   "deploy_architecture"]

/-- `_audit_is_mutating_tool` from src/bin/agui_server.py. -/
def audit_is_mutating_tool (tool_name : String) : Bool :=
  is_mutating_tool tool_name || AUDIT_EXTRA_TOOLS.contains tool_name

/-- `_audit_cloud_for_tool`. -/
def audit_cloud_for_tool (tool_name : String) : String :=
  if strContains (lowerStr tool_name) ("azure") then "azure" else "aws"

/-- Python `str[:n]` on our strings. -/
def takeStr (s : String) (n : Nat) : String := String.mk (s.data.take n)

/-- Python `str.replace("\n", " ")`. -/
def replaceNl (s : String) : String :=
  String.mk (s.data.map (fun c => if c = '\n' then ' ' else c))

/-- `_audit_extract_details`: first truthy of error / message / stdout /
details (the latter two newline-flattened), truncated to 600, else a fixed
string. -/
def audit_extract_details (r : Option AuditResult) : String :=
  match r with
  | none => "tool executed"
  | some x =>
    if optTruthy x.error then takeStr (x.error.getD ("")) 600
    else if optTruthy x.message then takeStr (x.message.getD ("")) 600
    else if optTruthy x.stdout then takeStr (replaceNl (x.stdout.getD (""))) 600
    else if optTruthy x.details then takeStr (replaceNl (x.details.getD (""))) 600
    else "tool executed"

/-- The argument keys probed by `_audit_extract_resource`, in order. -/
def RESOURCE_ARG_KEYS : List String :=
  ["bucket_name", "db_name", "function_name", "project_name", "workflow_id",
   "resource_id", "cluster_name", "service_name"]

/-- First truthy argument value among the probed keys. -/
def firstTruthyArg (args : List (String × String)) : List String → Option String
  | [] => none
  | k :: ks =>
    match lookupA args k with
    | some v => if v ≠ "" then some v else firstTruthyArg args ks
    | none => firstTruthyArg args ks

/-- First truthy optional string. -/
def firstTruthyOpt : List (Option String) → Option String
  | [] => none
  | o :: rest => if optTruthy o then o else firstTruthyOpt rest

/-- `_audit_extract_resource`: best-effort resource label from args, then
from the result dict, else `"n/a"`. -/
def audit_extract_resource (_tool_name : String) (tool_args : List (String × String))
    (tool_result : Option AuditResult) : String :=
  let fromArgs := if tool_args ≠ [] then firstTruthyArg tool_args RESOURCE_ARG_KEYS else none
  match fromArgs with
  | some v => v
  | none =>
    match tool_result with
    | some x =>
      match firstTruthyOpt ([x.project_name, x.resource_id, x.workflow_id]) with
      | some v => v
      | none => "n/a"
    | none => "n/a"

/-- `result.get("success", False)` on an optional result dict. -/
def resultSuccess : Option AuditResult → Bool
  | none => false
  | some x => x.success

/-- `user_info.get("user_arn") or user_info.get("account_id")`, kept only
when truthy. -/
def actorOf (r : Option AuditResult) : Option String :=
  match r with
  | none => none
  | some x =>
    let a := if optTruthy x.user_arn then x.user_arn else x.account_id
    if optTruthy a then a else none

/-- The audit row appended for a mutating `tool_execution_completed` record,
joining the arguments remembered from the matching started record. -/
def auditEntryOf (st : AuditState) (c : AuditEvent) : AuditEntry :=
  let key := (c.run_id, c.tool_call_id)
  let args := (lookupA st.started key).getD []
  AuditEntry.mk c.timestamp c.run_id c.thread_id
    ((lookupA st.actors c.run_id).getD ("unknown"))
    (audit_cloud_for_tool c.tool_name) c.tool_name
    (audit_extract_resource c.tool_name args c.tool_result)
    (if c.success then "success" else "failed")
    (audit_extract_details c.tool_result) args

/-- The audit row appended for a mutating failed/blocked record (the code
passes an empty dict as the result there). -/
def auditFailedEntryOf (st : AuditState) (c : AuditEvent) : AuditEntry :=
  let key := (c.run_id, c.tool_call_id)
  let args := (lookupA st.started key).getD []
  let details := match c.reason with
    | some rr => if rr ≠ "" then rr
        else (match c.error with
          | some e => if e ≠ "" then e else c.event_type
          | none => c.event_type)
    | none =>
      match c.error with
      | some e => if e ≠ "" then e else c.event_type
      | none => c.event_type
  AuditEntry.mk c.timestamp c.run_id c.thread_id
    ((lookupA st.actors c.run_id).getD ("unknown"))
    (audit_cloud_for_tool c.tool_name) c.tool_name
    (audit_extract_resource c.tool_name args none)
    (if c.event_type = "tool_execution_blocked" then "blocked" else "failed")
    (takeStr details 600) args

/-- The actor-tracking update applied to a completed record before the
mutating check: a successful `get_user_permissions` result records the
run's human-readable actor. -/
def auditActorStep (st : AuditState) (record : AuditEvent) : AuditState :=
  if record.tool_name = "get_user_permissions" ∧ resultSuccess record.tool_result = true then
    match actorOf record.tool_result with
    | some actor => { st with actors := putA st.actors record.run_id actor }
    | none => st
  else st

/-- Handling of a `tool_execution_completed` record: actor tracking, then an
audit row when the tool is classified mutating. -/
def auditCompletedStep (st : AuditState) (record : AuditEvent) : AuditState :=
  let st1 := auditActorStep st record
  if audit_is_mutating_tool record.tool_name = false then st1
  else { st1 with entries := st1.entries ++ [auditEntryOf st1 record] }

/-- One step of the event scan in `_collect_audit_entries` (lines 646-703):
index started records, track the last successful `get_user_permissions`
actor per run, and append audit rows for mutating completed/failed/blocked
records. -/
def auditStep (st : AuditState) (record : AuditEvent) : AuditState :=
  let key := (record.run_id, record.tool_call_id)
  if record.event_type = "tool_execution_started" then
    { st with started := putA st.started key record.tool_args }
  else if record.event_type = "tool_execution_completed" then
    auditCompletedStep st record
  else if (record.event_type = "tool_execution_failed" ∨
      record.event_type = "tool_execution_blocked") ∧
      audit_is_mutating_tool record.tool_name = true then
    { st with entries := st.entries ++ [auditFailedEntryOf st record] }
  else st

/-- The event-scan phase of `_collect_audit_entries` over a full event list
(the maker-checker rows, sorting, filtering and summary tallies operate on
these entries afterwards). -/
def collect_audit_event_entries (events : List AuditEvent) : List AuditEntry :=
  (events.foldl auditStep (AuditState.mk [] [] [])).entries

theorem lookupA_putA_ne {α β : Type} [DecidableEq α]
    (m : List (α × β)) (k k' : α) (v : β) (h : k ≠ k') :
    lookupA (putA m k v) k' = lookupA m k' := by
  induction m with
  | nil => simp [putA, lookupA, h]
  | cons hd tl ih =>
    obtain ⟨k₀, w⟩ := hd
    by_cases hk : k₀ = k
    · subst hk
      simp [putA, lookupA, h]
    · simp [putA, lookupA, hk, ih]

theorem auditActorStep_started (st : AuditState) (r : AuditEvent) :
    (auditActorStep st r).started = st.started := by
  unfold auditActorStep
  by_cases hg : r.tool_name = "get_user_permissions" ∧ resultSuccess r.tool_result = true
  · simp only [hg, if_true]
    cases hact : actorOf r.tool_result with
    | none => simp [hact]
    | some a => simp [hact]
  · simp [hg]

theorem auditActorStep_entries (st : AuditState) (r : AuditEvent) :
    (auditActorStep st r).entries = st.entries := by
  unfold auditActorStep
  by_cases hg : r.tool_name = "get_user_permissions" ∧ resultSuccess r.tool_result = true
  · simp only [hg, if_true]
    cases hact : actorOf r.tool_result with
    | none => simp [hact]
    | some a => simp [hact]
  · simp [hg]

theorem auditActorStep_of_not_gup (st : AuditState) (r : AuditEvent)
    (h : r.tool_name ≠ "get_user_permissions") : auditActorStep st r = st := by
  unfold auditActorStep
  simp [h]

theorem auditStep_started_eq (st : AuditState) (ev : AuditEvent)
    (h : ev.event_type ≠ "tool_execution_started") :
    (auditStep st ev).started = st.started := by
  unfold auditStep
  simp only [h, if_false]
  by_cases h2 : ev.event_type = "tool_execution_completed"
  · simp only [h2, if_true]
    unfold auditCompletedStep
    by_cases hm : audit_is_mutating_tool ev.tool_name = false
    · simp [hm, auditActorStep_started]
    · simp [hm, auditActorStep_started]
  · simp only [h2, if_false]
    by_cases h3 : (ev.event_type = "tool_execution_failed" ∨
        ev.event_type = "tool_execution_blocked") ∧
        audit_is_mutating_tool ev.tool_name = true
    · simp [h3]
    · simp [h3]

theorem auditStep_started_preserved (st : AuditState) (ev : AuditEvent)
    (rid cid : String)
    (h : ¬(ev.event_type = "tool_execution_started" ∧ ev.run_id = rid ∧
      ev.tool_call_id = cid)) :
    lookupA (auditStep st ev).started (rid, cid) = lookupA st.started (rid, cid) := by
  by_cases h1 : ev.event_type = "tool_execution_started"
  · have hkey : (ev.run_id, ev.tool_call_id) ≠ (rid, cid) := by
      intro hk
      rw [Prod.mk.injEq] at hk
      exact h ⟨h1, hk.1, hk.2⟩
    unfold auditStep
    simp only [h1, if_true]
    exact lookupA_putA_ne st.started (ev.run_id, ev.tool_call_id) (rid, cid)
      ev.tool_args hkey
  · rw [auditStep_started_eq st ev h1]

theorem foldl_started_preserved (evs : List AuditEvent) (st : AuditState)
    (rid cid : String)
    (h : ∀ e ∈ evs, ¬(e.event_type = "tool_execution_started" ∧ e.run_id = rid ∧
      e.tool_call_id = cid)) :
    lookupA (evs.foldl auditStep st).started (rid, cid) =
      lookupA st.started (rid, cid) := by
  induction evs generalizing st with
  | nil => rfl
  | cons e rest ih =>
    rw [List.foldl_cons,
      ih (auditStep st e) (fun x hx => h x (List.mem_cons_of_mem _ hx)),
      auditStep_started_preserved st e rid cid (h e (List.mem_cons_self _ _))]

theorem auditStep_on_started (st : AuditState) (s : AuditEvent)
    (he : s.event_type = "tool_execution_started") :
    lookupA (auditStep st s).started (s.run_id, s.tool_call_id) = some s.tool_args := by
  unfold auditStep
  simp only [he, if_true]
  exact lookupA_putA_self st.started (s.run_id, s.tool_call_id) s.tool_args

theorem auditStep_completed_mutating (st : AuditState) (c : AuditEvent)
    (he : c.event_type = "tool_execution_completed")
    (hm : audit_is_mutating_tool c.tool_name = true) :
    auditStep st c = { st with entries := st.entries ++ [auditEntryOf st c] } := by
  have hne : c.event_type ≠ "tool_execution_started" := by
    rw [he]
    decide
  have hgup : c.tool_name ≠ "get_user_permissions" := by
    intro hh
    rw [hh] at hm
    exact absurd hm (by decide)
  unfold auditStep
  simp only [hne, if_false, he, if_true]
  unfold auditCompletedStep
  rw [auditActorStep_of_not_gup st c hgup]
  simp [hm]

theorem auditStep_completed_nonmutating (st : AuditState) (c : AuditEvent)
    (he : c.event_type = "tool_execution_completed")
    (hm : audit_is_mutating_tool c.tool_name = false) :
    (auditStep st c).entries = st.entries := by
  have hne : c.event_type ≠ "tool_execution_started" := by
    rw [he]
    decide
  unfold auditStep
  simp only [hne, if_false, he, if_true]
  unfold auditCompletedStep
  simp [hm, auditActorStep_entries]

/-- C8: when the event log contains a `tool_execution_started` record
followed (with no later re-started record for the same `(run_id,
tool_call_id)` key in between) by a `tool_execution_completed` record for a
tool classified mutating by the audit classifier, the scan produces an audit
row whose `tool_args` are the started record's arguments and whose status is
`"success"` exactly when the completed record's success flag is true, else
`"failed"`; a completed record for a non-mutating tool contributes no audit
row. -/
theorem audit_join_spec :
    (∀ (pre mid : List AuditEvent) (s c : AuditEvent),
      s.event_type = "tool_execution_started" →
      c.event_type = "tool_execution_completed" →
      s.run_id = c.run_id → s.tool_call_id = c.tool_call_id →
      audit_is_mutating_tool c.tool_name = true →
      (∀ e ∈ mid, ¬(e.event_type = "tool_execution_started" ∧ e.run_id = c.run_id ∧
        e.tool_call_id = c.tool_call_id)) →
      ∃ entry ∈ collect_audit_event_entries ((pre ++ s :: mid) ++ [c]),
        entry.tool_args = s.tool_args ∧
        entry.action = c.tool_name ∧
        entry.run_id = c.run_id ∧
        entry.timestamp = c.timestamp ∧
        (entry.status = "success" ↔ c.success = true) ∧
        (c.success = false → entry.status = "failed")) ∧
    (∀ (evs : List AuditEvent) (ev : AuditEvent),
      ev.event_type = "tool_execution_completed" →
      audit_is_mutating_tool ev.tool_name = false →
      collect_audit_event_entries (evs ++ [ev]) = collect_audit_event_entries evs) := by
  constructor
  · intro pre mid s c hs hc hr hcid hm hmid
    unfold collect_audit_event_entries
    rw [List.foldl_append]
    set A := (pre ++ s :: mid).foldl auditStep (AuditState.mk [] [] []) with hA
    have hlook : lookupA A.started (c.run_id, c.tool_call_id) = some s.tool_args := by
      rw [hA, List.foldl_append, List.foldl_cons]
      rw [foldl_started_preserved mid _ c.run_id c.tool_call_id hmid]
      rw [← hr, ← hcid]
      exact auditStep_on_started _ s hs
    rw [List.foldl_cons, List.foldl_nil,
      auditStep_completed_mutating A c hc hm]
    refine ⟨auditEntryOf A c, by simp, ?_, rfl, rfl, rfl, ?_, ?_⟩
    · show (lookupA A.started (c.run_id, c.tool_call_id)).getD [] = s.tool_args
      rw [hlook]
      rfl
    · show (if c.success then "success" else "failed") = "success" ↔ c.success = true
      cases c.success <;> simp
    · intro hsucc
      show (if c.success then "success" else "failed") = "failed"
      rw [hsucc]
      rfl
  · intro evs ev he hm
    unfold collect_audit_event_entries
    rw [List.foldl_append, List.foldl_cons, List.foldl_nil]
    exact auditStep_completed_nonmutating _ ev he hm

/-- A concrete started record for the C8 witness. -/
def auditDemoStarted : AuditEvent :=
  AuditEvent.mk ("tool_execution_started") ("run1") ("t1") ("2024-01-01T00:00:00")
    ("create_s3_bucket") ("call1") ([("bucket_name", "demo-bucket")]) none false none none

/-- A concrete completed record for the C8 witness. -/
def auditDemoCompleted : AuditEvent :=
  AuditEvent.mk ("tool_execution_completed") ("run1") ("t1") ("2024-01-01T00:00:05")
    ("create_s3_bucket") ("call1") []
    (some (AuditResult.mk true none (some ("created")) none none none none
      (some ("s3_demo-bucket")) none none))
    true none none

/-- Witness for C8 with a concrete started/completed pair. -/
theorem audit_join_spec_witness :
    ∃ entry ∈ collect_audit_event_entries
        (([] ++ auditDemoStarted :: []) ++ [auditDemoCompleted]),
      entry.tool_args = auditDemoStarted.tool_args ∧
      entry.action = auditDemoCompleted.tool_name ∧
      entry.run_id = auditDemoCompleted.run_id ∧
      entry.timestamp = auditDemoCompleted.timestamp ∧
      (entry.status = "success" ↔ auditDemoCompleted.success = true) ∧
      (auditDemoCompleted.success = false → entry.status = "failed") :=
  audit_join_spec.1 [] [] auditDemoStarted auditDemoCompleted
    (by decide) (by decide) (by decide) (by decide) (by decide) (by simp)

end InfraAgent
